import Mathlib

/-!
Shallow embedding of the x402 Stacks sponsor relay worker (src/index.ts).

The embedding covers the /relay POST pipeline: JSON body handling, the
0x-prefix strip, transaction deserialization and the sponsored-auth check,
the fixed-window rate limiter, the sponsor-key configuration check, the
sponsorship and broadcast calls, and the final classification of the
broadcast result.  External library calls (deserializeTransaction,
sponsorTransaction, broadcastTransaction) are modelled as oracles passed
in as parameters; JavaScript truthiness and string operations are modelled
explicitly where the code relies on them.
-/

namespace Relay

/-- JavaScript runtime values that can appear in a parsed JSON field
(undefined stands for an absent field). -/
inductive JSValue where
  | undefined
  | jsnull
  | bool (b : Bool)
  | num (n : Int)
  | str (s : String)
  | obj
  | arr
  deriving DecidableEq, Repr

/-- JavaScript truthiness of a value, as used by the check
if (!body.transaction). -/
def jsTruthy : JSValue → Bool
  | .undefined => false
  | .jsnull => false
  | .bool b => b
  | .num n => n != 0
  | .str s => s != ""
  | .obj => true
  | .arr => true

/-- JavaScript truthiness of a possibly-undefined string variable, as used
by the check if (!env.SPONSOR_PRIVATE_KEY): none models undefined. -/
def jsTruthyStr : Option String → Bool
  | none => false
  | some s => s != ""

/-- JavaScript a || b on two possibly-undefined strings, as used by
broadcastResult.reason || broadcastResult.error. -/
def jsOrStr (a b : Option String) : Option String :=
  match a with
  | some s => if s != "" then some s else b
  | none => b

/-- JavaScript s.startsWith(p): p is a prefix of the code units of s. -/
def jsStartsWith (s p : String) : Bool :=
  p.data.isPrefixOf s.data

/-- JavaScript s.slice(n): drop the first n code units. -/
def jsSlice (s : String) (n : Nat) : String :=
  String.mk (s.data.drop n)

/-- Authorization kind of a decoded Stacks transaction
(AuthType.Standard or AuthType.Sponsored). -/
inductive AuthType where
  | standard
  | sponsored
  deriving DecidableEq, Repr

/-- The parts of a deserialized transaction the relay inspects:
transaction.auth.authType and transaction.auth.spendingCondition.signer
(a byte sequence). -/
structure DecodedTx where
  authType : AuthType
  signer : List Nat
  deriving DecidableEq, Repr

/-- Result of sponsorTransaction: the original transaction with the sponsor
signature and fee attached (opaque to the relay, which only forwards it). -/
structure SponsoredTx where
  tx : DecodedTx
  deriving DecidableEq, Repr

/-- Shape the relay casts the broadcastTransaction result to:
{ txid?: string; error?: string; reason?: string }. -/
structure BroadcastResult where
  txid : Option String
  error : Option String
  reason : Option String
  deriving DecidableEq, Repr

/-- JSON body of a relay response; a field set to none is omitted by
JSON.stringify, so none models an absent key. -/
structure RelayResponse where
  txid : Option String
  error : Option String
  details : Option String
  deriving DecidableEq, Repr

/-- An HTTP response: status code and JSON body (headers are constant
CORS/Content-Type headers and are not modelled). -/
structure HttpResponse where
  status : Nat
  body : RelayResponse
  deriving DecidableEq, Repr

/-- Hex digit character for a nibble, lowercase as produced by
Buffer.toString applied to "hex". -/
def hexDigitChar (n : Nat) : Char :=
  if n < 10 then Char.ofNat (48 + n) else Char.ofNat (87 + n)

/-- Two-character lowercase hex encoding of one byte. -/
def byteToHex (b : Nat) : String :=
  String.mk [hexDigitChar (b / 16 % 16), hexDigitChar (b % 16)]

/-- Buffer.from(senderAddress).toString applied to "hex": lowercase hex
encoding of the signer byte sequence, used as the rate-limit key. -/
def bytesToHex (bs : List Nat) : String :=
  String.join (bs.map byteToHex)

/-- Entry of the in-memory rate-limit map: { count, resetAt }. -/
structure RateLimitEntry where
  count : Nat
  resetAt : Nat
  deriving DecidableEq, Repr

/-- The in-memory map from sender key to rate-limit entry, modelled as an
association list in insertion order (as a JavaScript Map iterates). -/
abbrev RateLimitMap := List (String × RateLimitEntry)

/-- Map.get: the entry stored under a key, if any. -/
def mapGet (m : RateLimitMap) (k : String) : Option RateLimitEntry :=
  match m with
  | [] => none
  | (k', v) :: rest => if k' = k then some v else mapGet rest k

/-- Map.set: update the entry in place if the key exists, otherwise append
(JavaScript Map.set keeps insertion order and appends new keys). -/
def mapSet (m : RateLimitMap) (k : String) (v : RateLimitEntry) : RateLimitMap :=
  match m with
  | [] => [(k, v)]
  | (k', v') :: rest => if k' = k then (k, v) :: rest else (k', v') :: mapSet rest k v

/-- const RATE_LIMIT = 10 (requests per window). -/
def RATE_LIMIT : Nat := 10

/-- const RATE_WINDOW_MS = 60 * 1000 (one minute). -/
def RATE_WINDOW_MS : Nat := 60 * 1000

/-- checkRateLimit(address): fixed-window counter.  Absent or expired entry
(now strictly past resetAt): reset to count 1 and admit.  Entry at capacity:
reject without mutating.  Otherwise: increment and admit.  Returns the
admission decision together with the updated map (the TypeScript function
mutates the module-level rateLimitMap; here the map is passed explicitly). -/
def checkRateLimit (now : Nat) (address : String) (m : RateLimitMap) :
    Bool × RateLimitMap :=
  match mapGet m address with
  | none => (true, mapSet m address ⟨1, now + RATE_WINDOW_MS⟩)
  | some entry =>
    if now > entry.resetAt then
      (true, mapSet m address ⟨1, now + RATE_WINDOW_MS⟩)
    else if entry.count ≥ RATE_LIMIT then
      (false, m)
    else
      (true, mapSet m address ⟨entry.count + 1, entry.resetAt⟩)

/-- The external calls the /relay pipeline makes, as oracles: decoding can
fail (none), sponsorship and broadcast can throw (Except.error carries the
thrown message) or return normally. -/
structure ExternalCalls where
  deserializeTransaction : String → Option DecodedTx
  sponsorTransaction : DecodedTx → String → Except String SponsoredTx
  broadcastTransaction : SponsoredTx → Except String BroadcastResult

/-- Outcome of await request.json() followed by the property access
body.transaction: the parse can throw (parseError carries the message), the
body can be JSON null (accessing .transaction on null throws), or the access
yields the transaction field (none when absent, i.e. undefined). -/
inductive ParsedBody where
  | parseError (msg : String)
  | nullBody
  | parsed (transactionField : Option JSValue)
  deriving DecidableEq, Repr

/-- Pipeline stages whose entry the embedding records, in source order:
deserializeTransaction, checkRateLimit, sponsorTransaction,
broadcastTransaction. -/
inductive Stage where
  | deserialize
  | rateLimit
  | sponsor
  | broadcast
  deriving DecidableEq, Repr

/-- The canonical stage order of the pipeline. -/
def pipelineStages : List Stage :=
  [.deserialize, .rateLimit, .sponsor, .broadcast]

/-- Handling of a broadcast result that returned normally: a truthy error
field means rejection (400, details = reason || error); otherwise the
success path returns 200 with whatever txid the result carries
(JSON.stringify omits an undefined txid). -/
def handleBroadcastResult (br : BroadcastResult) : HttpResponse :=
  if jsTruthyStr br.error then
    ⟨400, ⟨none, some "Broadcast rejected", jsOrStr br.reason br.error⟩⟩
  else
    ⟨200, ⟨br.txid, none, none⟩⟩

/-- The /relay pipeline from the deserialization step on, given the already
stripped transaction hex.  Returns the response, the rate-limit map after
the request, and the list of stages entered. -/
def relayDecoded (now : Nat) (sponsorKey : Option String) (ext : ExternalCalls)
    (txHex : String) (st : RateLimitMap) :
    HttpResponse × RateLimitMap × List Stage :=
  match ext.deserializeTransaction txHex with
  | none =>
    (⟨400, ⟨none, some "Invalid transaction",
        some "Could not deserialize transaction hex"⟩⟩, st, [.deserialize])
  | some transaction =>
    if transaction.authType ≠ AuthType.sponsored then
      (⟨400, ⟨none, some "Transaction must be sponsored",
          some "Build transaction with sponsored: true"⟩⟩, st, [.deserialize])
    else
      match checkRateLimit now (bytesToHex transaction.signer) st with
      | (false, st') =>
        (⟨429, ⟨none, some "Rate limit exceeded",
            some "Maximum 10 requests per minute"⟩⟩, st',
          [.deserialize, .rateLimit])
      | (true, st') =>
        if jsTruthyStr sponsorKey = false then
          (⟨500, ⟨none, some "Service not configured",
              some "Sponsor key missing"⟩⟩, st', [.deserialize, .rateLimit])
        else
          match ext.sponsorTransaction transaction (sponsorKey.getD "") with
          | .error e =>
            (⟨500, ⟨none, some "Failed to sponsor transaction", some e⟩⟩, st',
              [.deserialize, .rateLimit, .sponsor])
          | .ok sponsoredTx =>
            match ext.broadcastTransaction sponsoredTx with
            | .error e =>
              (⟨500, ⟨none, some "Failed to broadcast transaction", some e⟩⟩,
                st', [.deserialize, .rateLimit, .sponsor, .broadcast])
            | .ok broadcastResult =>
              (handleBroadcastResult broadcastResult, st',
                [.deserialize, .rateLimit, .sponsor, .broadcast])

/-- The /relay POST handler body (the try block plus the outer catch).  A
JSON parse failure or a null body throws and is answered by the outer catch
as 500 Internal server error; a falsy transaction field is answered 400
Missing transaction field; a truthy non-string transaction field makes
body.transaction.startsWith throw a TypeError, also answered by the outer
catch; a string field has an optional 0x prefix stripped and continues with
relayDecoded. -/
def relayPost (now : Nat) (sponsorKey : Option String) (ext : ExternalCalls)
    (body : ParsedBody) (st : RateLimitMap) :
    HttpResponse × RateLimitMap × List Stage :=
  match body with
  | .parseError msg =>
    (⟨500, ⟨none, some "Internal server error", some msg⟩⟩, st, [])
  | .nullBody =>
    (⟨500, ⟨none, some "Internal server error",
        some "Cannot read properties of null"⟩⟩, st, [])
  | .parsed transactionField =>
    let txVal := transactionField.getD .undefined
    if jsTruthy txVal = false then
      (⟨400, ⟨none, some "Missing transaction field", none⟩⟩, st, [])
    else
      match txVal with
      | .str s =>
        let txHex := if jsStartsWith s "0x" then jsSlice s 2 else s
        relayDecoded now sponsorKey ext txHex st
      | _ =>
        (⟨500, ⟨none, some "Internal server error",
            some "body.transaction.startsWith is not a function"⟩⟩, st, [])

/-- Run a sequence of rate-limit checks (each call is a timestamp and a
sender key), threading the map; returns the admission decisions in order
and the final map. -/
def runSeq (calls : List (Nat × String)) (m : RateLimitMap) :
    List Bool × RateLimitMap :=
  match calls with
  | [] => ([], m)
  | (now, a) :: rest =>
    let r := checkRateLimit now a m
    let rs := runSeq rest r.2
    (r.1 :: rs.1, rs.2)

/-- Every entry of the rate-limit map has a count between 1 and the
capacity. -/
def rateLimitInv (m : RateLimitMap) : Prop :=
  ∀ p ∈ m, 1 ≤ p.2.count ∧ p.2.count ≤ RATE_LIMIT

/-- Hex digit characters (0-9, a-f, A-F). -/
def isHexChar (c : Char) : Bool :=
  (('0' ≤ c) && (c ≤ '9')) || (('a' ≤ c) && (c ≤ 'f')) || (('A' ≤ c) && (c ≤ 'F'))

/-- A well-formed transaction hex string: nonempty and made of hex digit
characters only. -/
def isTxHexStr (s : String) : Prop :=
  s.data ≠ [] ∧ ∀ c ∈ s.data, isHexChar c = true

/-- A concrete sponsored transaction used for concrete evaluations. -/
def tx0 : DecodedTx := ⟨AuthType.sponsored, [0]⟩

/-- External calls for concrete evaluations: decoding fails, sponsorship
and broadcast throw. -/
def extFailAll : ExternalCalls :=
  ⟨fun _ => none, fun _ _ => Except.error "sponsor failed",
   fun _ => Except.error "broadcast failed"⟩

/-- External calls for concrete evaluations: decoding yields tx0,
sponsorship succeeds, and broadcast returns a result carrying neither a
transaction id nor an error marker. -/
def extBroadcastEmpty : ExternalCalls :=
  ⟨fun _ => some tx0, fun t _ => Except.ok ⟨t⟩,
   fun _ => Except.ok ⟨none, none, none⟩⟩

theorem mapGet_mapSet_self (m : RateLimitMap) (k : String) (v : RateLimitEntry) :
    mapGet (mapSet m k v) k = some v := by
  induction m with
  | nil => simp [mapGet, mapSet]
  | cons p rest ih =>
    obtain ⟨k', v'⟩ := p
    by_cases h : k' = k
    · simp [mapGet, mapSet, h]
    · simp [mapGet, mapSet, h, ih]

theorem mem_mapSet (m : RateLimitMap) (k : String) (v : RateLimitEntry)
    (p : String × RateLimitEntry) (hp : p ∈ mapSet m k v) :
    p = (k, v) ∨ p ∈ m := by
  induction m with
  | nil => simpa [mapSet] using hp
  | cons q rest ih =>
    obtain ⟨k', v'⟩ := q
    by_cases h : k' = k
    · simp only [mapSet, if_pos h, List.mem_cons] at hp
      rcases hp with h1 | h2
      · exact Or.inl h1
      · exact Or.inr (List.mem_cons_of_mem _ h2)
    · simp only [mapSet, if_neg h, List.mem_cons] at hp
      rcases hp with h1 | h2
      · exact Or.inr (by simp [h1])
      · rcases ih h2 with h3 | h4
        · exact Or.inl h3
        · exact Or.inr (List.mem_cons_of_mem _ h4)

theorem rateLimitInv_mapSet (m : RateLimitMap) (k : String) (v : RateLimitEntry)
    (hm : rateLimitInv m) (hv : 1 ≤ v.count ∧ v.count ≤ RATE_LIMIT) :
    rateLimitInv (mapSet m k v) := by
  intro p hp
  rcases mem_mapSet m k v p hp with h | h
  · rw [h]; exact hv
  · exact hm p h

theorem rateLimitInv_of_mem (m : RateLimitMap) (a : String) (e : RateLimitEntry)
    (hm : rateLimitInv m) (h : mapGet m a = some e) :
    1 ≤ e.count ∧ e.count ≤ RATE_LIMIT := by
  induction m with
  | nil => simp [mapGet] at h
  | cons p rest ih =>
    obtain ⟨k', v'⟩ := p
    by_cases hk : k' = a
    · simp only [mapGet, if_pos hk] at h
      have hv := hm (k', v') (List.mem_cons_self _ _)
      obtain rfl : v' = e := by injection h
      simpa using hv
    · simp only [mapGet, if_neg hk] at h
      exact ih (fun p hp => hm p (List.mem_cons_of_mem _ hp)) h

theorem checkRateLimit_preserves_inv (now : Nat) (a : String) (m : RateLimitMap)
    (hm : rateLimitInv m) : rateLimitInv (checkRateLimit now a m).2 := by
  unfold checkRateLimit
  cases hget : mapGet m a with
  | none =>
    exact rateLimitInv_mapSet m a _ hm (by simp [RATE_LIMIT])
  | some e =>
    have he := rateLimitInv_of_mem m a e hm hget
    by_cases h1 : now > e.resetAt
    · simp only [if_pos h1]
      exact rateLimitInv_mapSet m a _ hm (by simp [RATE_LIMIT])
    · simp only [if_neg h1]
      by_cases h2 : e.count ≥ RATE_LIMIT
      · simp only [if_pos h2]; exact hm
      · simp only [if_neg h2]
        refine rateLimitInv_mapSet m a _ hm ?_
        refine And.intro ?_ ?_ <;> show _ ≤ _ <;> simp only [] <;> omega

theorem runSeq_preserves_inv (calls : List (Nat × String)) :
    ∀ m : RateLimitMap, rateLimitInv m → rateLimitInv (runSeq calls m).2 := by
  induction calls with
  | nil => intro m hm; simpa [runSeq] using hm
  | cons c rest ih =>
    intro m hm
    obtain ⟨now, a⟩ := c
    exact ih _ (checkRateLimit_preserves_inv now a m hm)

/-- C8: after any single rate-limiter call on a map satisfying the count
invariant, and after any sequence of calls starting from the empty map,
every stored count lies between 1 and the capacity 10. -/
theorem rateLimit_count_invariant :
    (∀ (now : Nat) (a : String) (m : RateLimitMap), rateLimitInv m →
      rateLimitInv (checkRateLimit now a m).2) ∧
    (∀ calls : List (Nat × String), rateLimitInv (runSeq calls []).2) :=
  ⟨checkRateLimit_preserves_inv,
   fun calls => runSeq_preserves_inv calls [] (by intro p hp; simp at hp)⟩

/-- Witness for C8 at a concrete map and call. -/
theorem rateLimit_count_invariant_witness :
    rateLimitInv (checkRateLimit 5 "b" [("a", ⟨3, 9⟩)]).2 :=
  rateLimit_count_invariant.1 5 "b" [("a", ⟨3, 9⟩)]
    (by intro p hp; simp only [List.mem_singleton] at hp; rw [hp]; decide)

theorem runSeq_window_aux (a : String) (R : Nat) :
    ∀ (ts : List Nat) (c : Nat) (m : RateLimitMap),
      mapGet m a = some ⟨c, R⟩ → (∀ t ∈ ts, t ≤ R) →
      (∀ i, i < ts.length →
        (runSeq (ts.map fun t => (t, a)) m).1.getD i false
          = decide (c + i < RATE_LIMIT)) ∧
      ∃ c', mapGet (runSeq (ts.map fun t => (t, a)) m).2 a = some ⟨c', R⟩ := by
  intro ts
  induction ts with
  | nil =>
    intro c m hget _
    exact ⟨fun i hi => by simp at hi, ⟨c, by simpa [runSeq] using hget⟩⟩
  | cons t rest ih =>
    intro c m hget hts
    have hle : t ≤ R := hts t (List.mem_cons_self _ _)
    have hrest : ∀ u ∈ rest, u ≤ R := fun u hu => hts u (List.mem_cons_of_mem _ hu)
    by_cases hc : c < RATE_LIMIT
    · have hstep : checkRateLimit t a m = (true, mapSet m a ⟨c + 1, R⟩) := by
        unfold checkRateLimit
        rw [hget]
        simp only []
        rw [if_neg (by omega), if_neg (by omega)]
      have hget1 : mapGet (mapSet m a ⟨c + 1, R⟩) a = some ⟨c + 1, R⟩ :=
        mapGet_mapSet_self m a _
      obtain ⟨ihres, c', ihst⟩ := ih (c + 1) (mapSet m a ⟨c + 1, R⟩) hget1 hrest
      constructor
      · intro i hi
        cases i with
        | zero =>
          simp only [List.map_cons, runSeq, hstep, List.getD_cons_zero]
          exact (decide_eq_true (by omega)).symm
        | succ j =>
          have hj : j < rest.length := by simpa using hi
          have := ihres j hj
          simp only [List.map_cons, runSeq, hstep, List.getD_cons_succ]
          rw [this]
          exact decide_eq_decide.mpr (by omega)
      · refine ⟨c', ?_⟩
        simpa [List.map_cons, runSeq, hstep] using ihst
    · have hstep : checkRateLimit t a m = (false, m) := by
        unfold checkRateLimit
        rw [hget]
        simp only []
        rw [if_neg (by omega), if_pos (by omega)]
      obtain ⟨ihres, c', ihst⟩ := ih c m hget hrest
      constructor
      · intro i hi
        cases i with
        | zero =>
          simp only [List.map_cons, runSeq, hstep, List.getD_cons_zero]
          exact (decide_eq_false (by omega)).symm
        | succ j =>
          have hj : j < rest.length := by simpa using hi
          have := ihres j hj
          simp only [List.map_cons, runSeq, hstep, List.getD_cons_succ]
          rw [this]
          exact decide_eq_decide.mpr (by omega)
      · refine ⟨c', ?_⟩
        simpa [List.map_cons, runSeq, hstep] using ihst

/-- C2 (amended): the per-call algorithm of checkRateLimit, with the window
considered expired only when the current time is strictly greater than
resetAt; and the window behaviour: starting from no entry, a run of calls
whose later timestamps stay at or before resetAt admits exactly the first
10 calls and rejects the rest, and a call strictly after resetAt admits
again. -/
theorem checkRateLimit_fixed_window :
    (∀ (now : Nat) (a : String) (m : RateLimitMap), mapGet m a = none →
      checkRateLimit now a m = (true, mapSet m a ⟨1, now + RATE_WINDOW_MS⟩)) ∧
    (∀ (now : Nat) (a : String) (m : RateLimitMap) (e : RateLimitEntry),
      mapGet m a = some e → e.resetAt < now →
      checkRateLimit now a m = (true, mapSet m a ⟨1, now + RATE_WINDOW_MS⟩)) ∧
    (∀ (now : Nat) (a : String) (m : RateLimitMap) (e : RateLimitEntry),
      mapGet m a = some e → now ≤ e.resetAt → e.count < RATE_LIMIT →
      checkRateLimit now a m = (true, mapSet m a ⟨e.count + 1, e.resetAt⟩)) ∧
    (∀ (now : Nat) (a : String) (m : RateLimitMap) (e : RateLimitEntry),
      mapGet m a = some e → now ≤ e.resetAt → RATE_LIMIT ≤ e.count →
      checkRateLimit now a m = (false, m)) ∧
    (∀ (a : String) (t0 : Nat) (ts : List Nat) (m : RateLimitMap),
      mapGet m a = none → (∀ t ∈ ts, t ≤ t0 + RATE_WINDOW_MS) →
      ∀ i, i < (t0 :: ts).length →
        (runSeq ((t0 :: ts).map fun t => (t, a)) m).1.getD i false
          = decide (i < RATE_LIMIT)) ∧
    (∀ (a : String) (t0 : Nat) (ts : List Nat) (m : RateLimitMap) (t2 : Nat),
      mapGet m a = none → (∀ t ∈ ts, t ≤ t0 + RATE_WINDOW_MS) →
      t0 + RATE_WINDOW_MS < t2 →
        (checkRateLimit t2 a
          (runSeq ((t0 :: ts).map fun t => (t, a)) m).2).1 = true) := by
  have hfresh : ∀ (now : Nat) (a : String) (m : RateLimitMap), mapGet m a = none →
      checkRateLimit now a m = (true, mapSet m a ⟨1, now + RATE_WINDOW_MS⟩) := by
    intro now a m h
    unfold checkRateLimit
    rw [h]
  have hexpired : ∀ (now : Nat) (a : String) (m : RateLimitMap) (e : RateLimitEntry),
      mapGet m a = some e → e.resetAt < now →
      checkRateLimit now a m = (true, mapSet m a ⟨1, now + RATE_WINDOW_MS⟩) := by
    intro now a m e h h2
    unfold checkRateLimit
    rw [h]
    simp only []
    rw [if_pos (by omega)]
  refine ⟨hfresh, hexpired, ?_, ?_, ?_, ?_⟩
  · intro now a m e h h2 h3
    unfold checkRateLimit
    rw [h]
    simp only []
    rw [if_neg (by omega), if_neg (by omega)]
  · intro now a m e h h2 h3
    unfold checkRateLimit
    rw [h]
    simp only []
    rw [if_neg (by omega), if_pos (by omega)]
  · intro a t0 ts m hget hts i hi
    have hstep := hfresh t0 a m hget
    have hget1 : mapGet (mapSet m a ⟨1, t0 + RATE_WINDOW_MS⟩) a
        = some ⟨1, t0 + RATE_WINDOW_MS⟩ := mapGet_mapSet_self m a _
    obtain ⟨ihres, -⟩ :=
      runSeq_window_aux a (t0 + RATE_WINDOW_MS) ts 1 _ hget1 hts
    cases i with
    | zero =>
      simp [List.map_cons, runSeq, hstep, RATE_LIMIT]
    | succ j =>
      have hj : j < ts.length := by simpa using hi
      have := ihres j hj
      simp only [List.map_cons, runSeq, hstep, List.getD_cons_succ]
      rw [this]
      exact decide_eq_decide.mpr (by omega)
  · intro a t0 ts m t2 hget hts h2
    have hstep := hfresh t0 a m hget
    have hget1 : mapGet (mapSet m a ⟨1, t0 + RATE_WINDOW_MS⟩) a
        = some ⟨1, t0 + RATE_WINDOW_MS⟩ := mapGet_mapSet_self m a _
    obtain ⟨-, c', hst⟩ :=
      runSeq_window_aux a (t0 + RATE_WINDOW_MS) ts 1 _ hget1 hts
    have hfinal : mapGet (runSeq ((t0 :: ts).map fun t => (t, a)) m).2 a
        = some ⟨c', t0 + RATE_WINDOW_MS⟩ := by
      simpa [List.map_cons, runSeq, hstep] using hst
    rw [hexpired t2 a _ _ hfinal (by simpa using h2)]

/-- Witness for C2: from an empty map, eleven requests by the same sender
at the same instant have their eleventh (index 10) rejected. -/
theorem checkRateLimit_fixed_window_witness :
    (runSeq ((0 :: List.replicate 10 0).map fun t => (t, "a")) []).1.getD 10 false
      = decide (10 < RATE_LIMIT) :=
  checkRateLimit_fixed_window.2.2.2.2.1 "a" 0 (List.replicate 10 0) [] rfl
    (by intro t ht; rw [List.eq_of_mem_replicate ht]; omega) 10 (by simp)

/-- C2 (counterexample): the claim resets the window as soon as the current
time reaches resetAt; the code resets only strictly after resetAt, so a
request arriving exactly at resetAt with the counter full is rejected, not
admitted. -/
theorem checkRateLimit_reset_at_boundary_false :
    ¬ (∀ (now : Nat) (a : String) (m : RateLimitMap) (e : RateLimitEntry),
        mapGet m a = some e → e.resetAt ≤ now →
        (checkRateLimit now a m).1 = true) := by
  intro h
  have h10 := h 100 "a" [("a", ⟨10, 100⟩)] ⟨10, 100⟩ (by decide) (Nat.le_refl 100)
  exact absurd h10 (by decide)

theorem bne_empty_of_data_ne (s : String) (h : s.data ≠ []) : (s != "") = true := by
  rw [bne_iff_ne]
  intro heq
  rw [heq] at h
  exact h rfl

theorem relayPost_str (now : Nat) (key : Option String) (ext : ExternalCalls)
    (st : RateLimitMap) (t : String) (ht : t.data ≠ []) :
    relayPost now key ext (.parsed (some (.str t))) st
      = relayDecoded now key ext (if jsStartsWith t "0x" then jsSlice t 2 else t) st := by
  simp only [relayPost, Option.getD_some, jsTruthy]
  rw [if_neg (by simp [bne_empty_of_data_ne t ht])]

/-- C10: a request body that is not valid JSON makes request.json throw,
and the outer catch answers 500 Internal server error with the parse
message as details, not a 400. -/
theorem invalid_json_is_internal_error (now : Nat) (key : Option String)
    (ext : ExternalCalls) (msg : String) (st : RateLimitMap) :
    relayPost now key ext (.parseError msg) st
      = (⟨500, ⟨none, some "Internal server error", some msg⟩⟩, st, []) := rfl

/-- C9: a transaction field equal to the empty string is falsy, so the
request is answered 400 Missing transaction field, not a decode error. -/
theorem empty_transaction_is_missing_field (now : Nat) (key : Option String)
    (ext : ExternalCalls) (st : RateLimitMap) :
    relayPost now key ext (.parsed (some (.str ""))) st
      = (⟨400, ⟨none, some "Missing transaction field", none⟩⟩, st, []) := by
  simp [relayPost, jsTruthy]

/-- C5 (amended): a falsy transaction field (absent, null, false, 0 or the
empty string) is answered 400 Missing transaction field with no further
processing; a truthy non-string field instead makes the startsWith call
throw a TypeError, which the outer catch answers as 500 Internal server
error, also with no further processing. -/
theorem transaction_field_check :
    (∀ (now : Nat) (key : Option String) (ext : ExternalCalls)
      (tf : Option JSValue) (st : RateLimitMap),
      jsTruthy (tf.getD .undefined) = false →
      relayPost now key ext (.parsed tf) st
        = (⟨400, ⟨none, some "Missing transaction field", none⟩⟩, st, [])) ∧
    (∀ (now : Nat) (key : Option String) (ext : ExternalCalls)
      (v : JSValue) (st : RateLimitMap),
      jsTruthy v = true → (∀ s, v ≠ .str s) →
      relayPost now key ext (.parsed (some v)) st
        = (⟨500, ⟨none, some "Internal server error",
            some "body.transaction.startsWith is not a function"⟩⟩, st, [])) := by
  constructor
  · intro now key ext tf st h
    simp [relayPost, h]
  · intro now key ext v st h hv
    cases v with
    | str s => exact absurd rfl (hv s)
    | undefined => simp [jsTruthy] at h
    | jsnull => simp [jsTruthy] at h
    | bool b => simp [relayPost, h]
    | num n => simp [relayPost, h]
    | obj => simp [relayPost, h]
    | arr => simp [relayPost, h]

/-- Witness for C5 at a concrete absent field. -/
theorem transaction_field_check_witness :
    relayPost 0 (some "k") extFailAll (.parsed none) []
      = (⟨400, ⟨none, some "Missing transaction field", none⟩⟩, [], []) :=
  transaction_field_check.1 0 (some "k") extFailAll none [] rfl

/-- C5 (counterexample): a transaction field holding the number 42 is
present and not a string, yet the response is 500 Internal server error,
not the 400 BadRequest the claim requires. -/
theorem transaction_field_nonstring_counterexample :
    (relayPost 0 (some "k") extFailAll (.parsed (some (.num 42))) []).1.status = 500 ∧
    (relayPost 0 (some "k") extFailAll (.parsed (some (.num 42))) []).1.status ≠ 400 := by
  constructor <;> decide

theorem relayDecoded_trace_take (now : Nat) (key : Option String)
    (ext : ExternalCalls) (txHex : String) (st : RateLimitMap) :
    ∃ k, (relayDecoded now key ext txHex st).2.2 = pipelineStages.take k := by
  simp only [relayDecoded]
  split
  · exact ⟨1, rfl⟩
  · split
    · exact ⟨1, rfl⟩
    · split
      · exact ⟨2, rfl⟩
      · split
        · exact ⟨2, rfl⟩
        · split
          · exact ⟨3, rfl⟩
          · split
            · exact ⟨4, rfl⟩
            · exact ⟨4, rfl⟩

theorem relayPost_trace_take (now : Nat) (key : Option String)
    (ext : ExternalCalls) (body : ParsedBody) (st : RateLimitMap) :
    ∃ k, (relayPost now key ext body st).2.2 = pipelineStages.take k := by
  cases body with
  | parseError msg => exact ⟨0, rfl⟩
  | nullBody => exact ⟨0, rfl⟩
  | parsed tf =>
    simp only [relayPost]
    split
    · exact ⟨0, rfl⟩
    · split
      · apply relayDecoded_trace_take
      · exact ⟨0, rfl⟩

/-- C3: the recorded stage list of any request is a prefix of the canonical
order deserialize, rateLimit, sponsor, broadcast, and every failing stage
truncates the run exactly at itself, so a later stage never begins once an
earlier one failed: a string transaction field routes into the decode
pipeline after the prefix strip; a transaction that fails to decode, or
decodes to a non-sponsored transaction, is answered 400 with the rate-limit
map untouched and only the deserialize stage entered, regardless of the
rate-limit state of any sender, so it is never answered 429 and sponsor
and broadcast are never invoked; a rate-limit rejection is answered 429
with the trace ending at the rateLimit stage, so sponsor and broadcast
never begin; a falsy sponsor key ends the trace at the rateLimit stage; and
a sponsorship failure is answered 500 with the trace ending at the sponsor
stage, so broadcast never begins. -/
theorem relay_pipeline_order :
    (∀ (now : Nat) (key : Option String) (ext : ExternalCalls)
      (body : ParsedBody) (st : RateLimitMap),
      ∃ k, (relayPost now key ext body st).2.2 = pipelineStages.take k) ∧
    (∀ (now : Nat) (key : Option String) (ext : ExternalCalls)
      (st : RateLimitMap) (t : String), t.data ≠ [] →
      relayPost now key ext (.parsed (some (.str t))) st
        = relayDecoded now key ext (if jsStartsWith t "0x" then jsSlice t 2 else t) st) ∧
    (∀ (now : Nat) (key : Option String) (ext : ExternalCalls)
      (txHex : String) (st : RateLimitMap),
      ext.deserializeTransaction txHex = none →
      relayDecoded now key ext txHex st
        = (⟨400, ⟨none, some "Invalid transaction",
            some "Could not deserialize transaction hex"⟩⟩, st, [Stage.deserialize])) ∧
    (∀ (now : Nat) (key : Option String) (ext : ExternalCalls)
      (txHex : String) (st : RateLimitMap) (tx : DecodedTx),
      ext.deserializeTransaction txHex = some tx →
      tx.authType ≠ AuthType.sponsored →
      relayDecoded now key ext txHex st
        = (⟨400, ⟨none, some "Transaction must be sponsored",
            some "Build transaction with sponsored: true"⟩⟩, st, [Stage.deserialize])) ∧
    (∀ (now : Nat) (key : Option String) (ext : ExternalCalls)
      (txHex : String) (st st2 : RateLimitMap) (tx : DecodedTx),
      ext.deserializeTransaction txHex = some tx →
      tx.authType = AuthType.sponsored →
      checkRateLimit now (bytesToHex tx.signer) st = (false, st2) →
      relayDecoded now key ext txHex st
        = (⟨429, ⟨none, some "Rate limit exceeded",
            some "Maximum 10 requests per minute"⟩⟩, st2,
           [Stage.deserialize, Stage.rateLimit])) ∧
    (∀ (now : Nat) (key : Option String) (ext : ExternalCalls)
      (txHex : String) (st st2 : RateLimitMap) (tx : DecodedTx),
      ext.deserializeTransaction txHex = some tx →
      tx.authType = AuthType.sponsored →
      checkRateLimit now (bytesToHex tx.signer) st = (true, st2) →
      jsTruthyStr key = false →
      relayDecoded now key ext txHex st
        = (⟨500, ⟨none, some "Service not configured", some "Sponsor key missing"⟩⟩,
           st2, [Stage.deserialize, Stage.rateLimit])) ∧
    (∀ (now : Nat) (key : Option String) (ext : ExternalCalls)
      (txHex : String) (st st2 : RateLimitMap) (tx : DecodedTx) (e : String),
      ext.deserializeTransaction txHex = some tx →
      tx.authType = AuthType.sponsored →
      checkRateLimit now (bytesToHex tx.signer) st = (true, st2) →
      jsTruthyStr key = true →
      ext.sponsorTransaction tx (key.getD "") = Except.error e →
      relayDecoded now key ext txHex st
        = (⟨500, ⟨none, some "Failed to sponsor transaction", some e⟩⟩,
           st2, [Stage.deserialize, Stage.rateLimit, Stage.sponsor])) := by
  refine ⟨relayPost_trace_take, relayPost_str, ?_, ?_, ?_, ?_, ?_⟩
  · intro now key ext txHex st h
    simp [relayDecoded, h]
  · intro now key ext txHex st tx h h2
    simp [relayDecoded, h, h2]
  · intro now key ext txHex st st2 tx h h2 hrl
    simp [relayDecoded, h, h2, hrl]
  · intro now key ext txHex st st2 tx h h2 hrl hkey
    simp [relayDecoded, h, h2, hrl, hkey]
  · intro now key ext txHex st st2 tx e h h2 hrl hkey herr
    simp [relayDecoded, h, h2, hrl, hkey, herr]

/-- Witness for C3: a transaction that fails to decode, submitted while the
rate-limit map already holds an exhausted counter, is answered 400 Invalid
transaction (not 429) and only the deserialize stage runs; and a decodable
sponsored transaction from that exhausted sender is answered 429 with the
trace ending at the rateLimit stage, so sponsor and broadcast never begin. -/
theorem relay_pipeline_order_witness :
    (relayPost 0 (some "k") extFailAll (.parsed (some (.str "zz")))
        [("00", ⟨10, 999999⟩)]
      = (⟨400, ⟨none, some "Invalid transaction",
          some "Could not deserialize transaction hex"⟩⟩,
         [("00", ⟨10, 999999⟩)], [Stage.deserialize])) ∧
    (relayDecoded 0 (some "k") extBroadcastEmpty "ab" [("00", ⟨10, 999999⟩)]
      = (⟨429, ⟨none, some "Rate limit exceeded",
          some "Maximum 10 requests per minute"⟩⟩,
         [("00", ⟨10, 999999⟩)], [Stage.deserialize, Stage.rateLimit])) :=
  ⟨(relay_pipeline_order.2.1 0 (some "k") extFailAll [("00", ⟨10, 999999⟩)] "zz"
      (by decide)).trans
    (relay_pipeline_order.2.2.1 0 (some "k") extFailAll _ [("00", ⟨10, 999999⟩)] rfl),
   relay_pipeline_order.2.2.2.2.1 0 (some "k") extBroadcastEmpty "ab"
     [("00", ⟨10, 999999⟩)] [("00", ⟨10, 999999⟩)] tx0 rfl rfl (by decide)⟩

theorem relayDecoded_key_falsy (now : Nat) (key : Option String)
    (ext : ExternalCalls) (txHex : String) (st : RateLimitMap)
    (hkey : jsTruthyStr key = false) :
    Stage.sponsor ∉ (relayDecoded now key ext txHex st).2.2 ∧
    Stage.broadcast ∉ (relayDecoded now key ext txHex st).2.2 ∧
    (Stage.rateLimit ∈ (relayDecoded now key ext txHex st).2.2 →
      (relayDecoded now key ext txHex st).1.status ≠ 429 →
      (relayDecoded now key ext txHex st).1
        = ⟨500, ⟨none, some "Service not configured", some "Sponsor key missing"⟩⟩) := by
  simp only [relayDecoded]
  split
  · refine ⟨by simp, by simp, ?_⟩
    intro h
    simp at h
  · split
    · refine ⟨by simp, by simp, ?_⟩
      intro h
      simp at h
    · split
      · refine ⟨by simp, by simp, ?_⟩
        intro _ hs
        exact absurd rfl hs
      · refine ⟨by simp, by simp, ?_⟩
        intro _ _
        rfl

theorem relayPost_cases (now : Nat) (key : Option String) (ext : ExternalCalls)
    (body : ParsedBody) (st : RateLimitMap) :
    ((relayPost now key ext body st).2.2 = [] ∧
      (relayPost now key ext body st).2.1 = st) ∨
    ∃ t, relayPost now key ext body st = relayDecoded now key ext t st := by
  cases body with
  | parseError msg => exact Or.inl ⟨rfl, rfl⟩
  | nullBody => exact Or.inl ⟨rfl, rfl⟩
  | parsed tf =>
    rcases tf with _ | v
    · exact Or.inl ⟨rfl, rfl⟩
    · cases v with
      | str s =>
        by_cases hs : s.data = []
        · have hse : s = "" := by
            cases s with | mk d => exact congrArg String.mk (by simpa using hs)
          subst hse
          left
          constructor <;> simp [relayPost, jsTruthy]
        · exact Or.inr ⟨_, relayPost_str now key ext st s hs⟩
      | undefined => exact Or.inl ⟨rfl, rfl⟩
      | jsnull => exact Or.inl ⟨rfl, rfl⟩
      | bool b => cases b with
        | false => exact Or.inl ⟨rfl, rfl⟩
        | true => exact Or.inl ⟨rfl, rfl⟩
      | num n =>
        by_cases hn : n = 0
        · subst hn
          exact Or.inl ⟨rfl, rfl⟩
        · left
          constructor <;> simp [relayPost, jsTruthy, bne_iff_ne, hn]
      | obj => exact Or.inl ⟨rfl, rfl⟩
      | arr => exact Or.inl ⟨rfl, rfl⟩

/-- C4 (amended): when the sponsor key is unset or empty, the sponsor and
broadcast functions are never invoked on any request, and every request
that reaches the rate limiter and is not rate limited is answered 500
Service not configured; requests rejected earlier keep their earlier
responses. -/
theorem sponsor_key_unconfigured :
    ∀ (now : Nat) (key : Option String) (ext : ExternalCalls)
      (body : ParsedBody) (st : RateLimitMap), jsTruthyStr key = false →
      Stage.sponsor ∉ (relayPost now key ext body st).2.2 ∧
      Stage.broadcast ∉ (relayPost now key ext body st).2.2 ∧
      (Stage.rateLimit ∈ (relayPost now key ext body st).2.2 →
        (relayPost now key ext body st).1.status ≠ 429 →
        (relayPost now key ext body st).1
          = ⟨500, ⟨none, some "Service not configured", some "Sponsor key missing"⟩⟩) := by
  intro now key ext body st hkey
  rcases relayPost_cases now key ext body st with ⟨htr, -⟩ | ⟨t, heq⟩
  · rw [htr]
    exact ⟨by simp, by simp, by intro h; simp at h⟩
  · rw [heq]
    exact relayDecoded_key_falsy now key ext t st hkey

/-- Witness for C4: with the key unset, a well-formed sponsored request
that passes validation and rate limiting is answered 500 Service not
configured. -/
theorem sponsor_key_unconfigured_witness :
    (relayPost 0 none extBroadcastEmpty (.parsed (some (.str "ab"))) []).1
      = ⟨500, ⟨none, some "Service not configured", some "Sponsor key missing"⟩⟩ :=
  (sponsor_key_unconfigured 0 none extBroadcastEmpty (.parsed (some (.str "ab"))) []
    rfl).2.2 (by decide) (by decide)

/-- C4 (counterexample): with the sponsor key unset, a POST whose body has
no transaction field is answered 400 Missing transaction field, so not
every /relay POST is answered 500 Service not configured. -/
theorem sponsor_key_unconfigured_counterexample :
    (relayPost 0 none extFailAll (.parsed none) []).1
        = ⟨400, ⟨none, some "Missing transaction field", none⟩⟩ ∧
    (relayPost 0 none extFailAll (.parsed none) []).1.status ≠ 500 := by
  constructor <;> decide

theorem isPrefixOf_0x_false {l : List Char} (hx : ∀ c ∈ l, isHexChar c = true) :
    List.isPrefixOf ['0', 'x'] l = false := by
  match l with
  | [] => rfl
  | [c] => simp [List.isPrefixOf]
  | c :: d :: rest =>
    have hd := hx d (List.mem_cons_of_mem _ (List.mem_cons_self _ _))
    have hdx : ('x' == d) = false := by
      rw [beq_eq_false_iff_ne]
      intro h
      rw [← h] at hd
      exact absurd hd (by decide)
    simp [List.isPrefixOf, hdx]

theorem jsStartsWith_0x_of_hex {s : String} (hx : ∀ c ∈ s.data, isHexChar c = true) :
    jsStartsWith s "0x" = false := by
  unfold jsStartsWith
  exact isPrefixOf_0x_false hx

theorem jsStartsWith_0x_append (s : String) :
    jsStartsWith ("0x" ++ s) "0x" = true := by
  cases s with
  | mk d => simp [jsStartsWith, List.isPrefixOf]

theorem jsSlice_0x_append (s : String) : jsSlice ("0x" ++ s) 2 = s := by
  cases s with
  | mk d => rfl

/-- C7: a well-formed transaction hex submitted with a leading 0x prefix
takes exactly the same pipeline path, and produces exactly the same
response, state and stage trace, as the same hex submitted without the
prefix: the prefix is stripped before decoding. -/
theorem hex_0x_round_trip (now : Nat) (key : Option String) (ext : ExternalCalls)
    (st : RateLimitMap) (s : String) (h : isTxHexStr s) :
    relayPost now key ext (.parsed (some (.str ("0x" ++ s)))) st
      = relayPost now key ext (.parsed (some (.str s))) st := by
  obtain ⟨hne, hhex⟩ := h
  have hdata : ("0x" ++ s).data ≠ [] := by
    cases s with | mk d => simp
  rw [relayPost_str now key ext st _ hdata, relayPost_str now key ext st s hne]
  rw [if_pos (jsStartsWith_0x_append s), jsSlice_0x_append]
  rw [if_neg (by rw [jsStartsWith_0x_of_hex hhex]; exact Bool.false_ne_true)]

/-- Witness for C7 at the concrete hex string ab. -/
theorem hex_0x_round_trip_witness :
    relayPost 0 (some "k") extFailAll (.parsed (some (.str "0xab"))) []
      = relayPost 0 (some "k") extFailAll (.parsed (some (.str "ab"))) [] :=
  hex_0x_round_trip 0 (some "k") extFailAll [] "ab" (by constructor <;> decide)

/-- C1 (amended): the relay classifies a broadcast result as rejected
exactly when its error field is truthy (present and non-empty); any other
result, including one with neither a txid nor an error, is answered 200
with the txid field simply copied over (absent when the result lacked one),
not as an internal error. -/
theorem broadcast_result_classification :
    ∀ br : BroadcastResult,
      ((handleBroadcastResult br).status = 400 ↔ jsTruthyStr br.error = true) ∧
      ((handleBroadcastResult br).status = 200 ↔ jsTruthyStr br.error = false) ∧
      (jsTruthyStr br.error = false →
        handleBroadcastResult br = ⟨200, ⟨br.txid, none, none⟩⟩) ∧
      (br.txid = none → br.error = none →
        handleBroadcastResult br = ⟨200, ⟨none, none, none⟩⟩) := by
  intro br
  cases he : jsTruthyStr br.error with
  | true =>
    refine ⟨by simp [handleBroadcastResult, he], by simp [handleBroadcastResult, he],
      by simp, ?_⟩
    intro _ hnone
    rw [hnone] at he
    simp [jsTruthyStr] at he
  | false =>
    exact ⟨by simp [handleBroadcastResult, he], by simp [handleBroadcastResult, he],
      fun _ => by simp [handleBroadcastResult, he],
      fun ht _ => by simp [handleBroadcastResult, he, ht]⟩

/-- Witness for C1: a broadcast result with neither txid nor error is
answered 200 with an empty body. -/
theorem broadcast_result_classification_witness :
    handleBroadcastResult ⟨none, none, none⟩ = ⟨200, ⟨none, none, none⟩⟩ :=
  (broadcast_result_classification ⟨none, none, none⟩).2.2.2 rfl rfl

/-- C1 (counterexample): a full relay request whose broadcast call returns
a result containing neither a transaction id nor a rejection marker is
answered 200 with an empty JSON body, not the 500 InternalError the claim
requires. -/
theorem broadcast_neither_field_counterexample :
    (relayPost 0 (some "k") extBroadcastEmpty (.parsed (some (.str "ab"))) []).1
        = ⟨200, ⟨none, none, none⟩⟩ ∧
    (relayPost 0 (some "k") extBroadcastEmpty (.parsed (some (.str "ab"))) []).1.status
        ≠ 500 := by
  constructor <;> decide

/-- C6 (amended): on a rejection result the 400 response carries details
equal to the reason when the reason is a non-empty string, and otherwise
equal to the error; a result of shape txid-only is answered 200 with that
txid and no error key. -/
theorem broadcast_rejection_details :
    ∀ br : BroadcastResult,
      (∀ r, br.reason = some r → r ≠ "" → jsTruthyStr br.error = true →
        handleBroadcastResult br
          = ⟨400, ⟨none, some "Broadcast rejected", some r⟩⟩) ∧
      ((br.reason = none ∨ br.reason = some "") → jsTruthyStr br.error = true →
        handleBroadcastResult br
          = ⟨400, ⟨none, some "Broadcast rejected", br.error⟩⟩) ∧
      (∀ t, br.txid = some t → br.error = none →
        handleBroadcastResult br = ⟨200, ⟨some t, none, none⟩⟩) := by
  intro br
  refine ⟨?_, ?_, ?_⟩
  · intro r hr hne he
    simp [handleBroadcastResult, he, jsOrStr, hr, bne_iff_ne, hne]
  · intro hres he
    rcases hres with h | h <;>
      simp [handleBroadcastResult, he, jsOrStr, h]
  · intro t ht he
    simp [handleBroadcastResult, he, jsTruthyStr, ht]

/-- Witness for C6: a rejection with a non-empty reason reports that reason
as details. -/
theorem broadcast_rejection_details_witness :
    handleBroadcastResult ⟨none, some "e", some "why"⟩
      = ⟨400, ⟨none, some "Broadcast rejected", some "why"⟩⟩ :=
  (broadcast_rejection_details ⟨none, some "e", some "why"⟩).1 "why" rfl
    (by decide) (by decide)

/-- C6 (counterexample): the claim says details equals the reason whenever
the reason field is present; but a present empty-string reason is falsy, so
the code falls back to the error text instead. -/
theorem broadcast_reason_empty_counterexample :
    ¬ (∀ (br : BroadcastResult) (r : String), br.reason = some r →
        jsTruthyStr br.error = true →
        (handleBroadcastResult br).body.details = some r) := by
  intro h
  have h0 := h ⟨none, some "err", some ""⟩ "" rfl (by decide)
  exact absurd h0 (by decide)

end Relay
